import Mathlib

/-!
Verification of the StreamTech live relay (`StreamHandler` in
`src/routes/convert.js`) against its natural-language specification.

The file shallow-embeds the two `StreamHandler` variants found in the source:

* the "optimized" variant (argument construction in `_buildFFmpegArgs`,
  with hardware and software encode profiles), and
* the "legacy" variant (inline `ffmpegArgs` array in `_startStream`).

The stateful part (the Socket.io event handlers `_startStream`,
`_handleData`, `_stopStream`, the `disconnect` handler and the ffmpeg
`error`/`close` callbacks) is embedded as a step function over an explicit
handler state (the `streams` Map plus a fresh-pid counter), producing a
list of observable effects per input event: client emits, process spawns,
stdin writes, stdin closes and kill signals.  JS `Map` semantics are
embedded as an association list with replace-on-set.
-/

namespace StreamTech

/-- The config object passed with a `start-stream` message.  Fields are
optional because JS destructuring defaults (`width = 1920`, ...) fire only
when a field is `undefined`; `rtmpUrl` is checked for JS falsiness
(missing or empty string). -/
structure StreamConfig where
  rtmpUrl : Option String
  streamKey : Option String
  width : Option Int
  height : Option Int
  fps : Option Int
  bitrate : Option Int
deriving Repr, DecidableEq

/-- `streamKey ? rtmpUrl/streamKey : rtmpUrl` — the key is appended only
when truthy (present and non-empty). -/
def fullTargetUrl (rtmpUrl : String) (streamKey : Option String) : String :=
  match streamKey with
  | some k => if k = "" then rtmpUrl else rtmpUrl ++ "/" ++ k
  | none => rtmpUrl

/-- `_buildFFmpegArgs` of the optimized `StreamHandler`: shared input
flags, then the NVENC hardware profile or the libx264 software profile
(selected by `USE_HARDWARE_ENCODING`), then the shared output settings.
`Math.floor(bitrate / 2)` is embedded as `Int.fdiv bitrate 2`. -/
def buildFFmpegArgs (rtmpUrl : String) (width height fps bitrate : Int)
    (useHardware : Bool) : List String :=
  let base : List String :=
    ["-fflags", "nobuffer", "-flags", "low_delay", "-i", "pipe:0", "-threads", "4"]
  let enc : List String :=
    if useHardware then
      ["-c:v", "h264_nvenc", "-preset", "p4", "-tune", "ll",
       "-b:v", toString bitrate ++ "k", "-maxrate", toString bitrate ++ "k",
       "-bufsize", toString (Int.fdiv bitrate 2) ++ "k",
       "-rc", "cbr", "-gpu", "0"]
    else
      ["-c:v", "libx264", "-preset", "ultrafast", "-tune", "zerolatency",
       "-profile:v", "baseline", "-level", "3.1",
       "-b:v", toString bitrate ++ "k", "-maxrate", toString bitrate ++ "k",
       "-bufsize", toString (Int.fdiv bitrate 2) ++ "k",
       "-threads", "4", "-x264-params", "nal-hrd=cbr:force-cfr=1"]
  base ++ enc ++
    ["-pix_fmt", "yuv420p", "-g", toString (fps * 2), "-r", toString fps,
     "-vsync", "cfr",
     "-vf", "scale=" ++ toString width ++ ":" ++ toString height ++
       ":force_original_aspect_ratio=decrease,pad=" ++ toString width ++ ":" ++
       toString height ++ ":(ow-iw)/2:(oh-ih)/2,format=yuv420p",
     "-c:a", "aac", "-b:a", "128k", "-ar", "44100", "-ac", "2",
     "-f", "flv", rtmpUrl]

/-- The inline `ffmpegArgs` array of the legacy `_startStream` (second
`StreamHandler` variant in the source).  Note `-bufsize` is built from
`bitrate * 2` there. -/
def legacyFFmpegArgs (fullRtmpUrl : String) (width height fps bitrate : Int) :
    List String :=
  ["-i", "pipe:0",
   "-c:v", "libx264", "-preset", "veryfast", "-tune", "zerolatency",
   "-b:v", toString bitrate ++ "k", "-maxrate", toString bitrate ++ "k",
   "-bufsize", toString (bitrate * 2) ++ "k",
   "-pix_fmt", "yuv420p", "-g", toString (fps * 2), "-r", toString fps,
   "-vf", "scale=" ++ toString width ++ ":" ++ toString height ++
     ":force_original_aspect_ratio=decrease,pad=" ++ toString width ++ ":" ++
     toString height ++ ":(ow-iw)/2:(oh-ih)/2",
   "-c:a", "aac", "-b:a", "128k", "-ar", "44100", "-ac", "2",
   "-f", "flv", fullRtmpUrl]

/-- Value following the first occurrence of a flag in an argument list. -/
def argValue (flag : String) : List String → Option String
  | a :: b :: rest => if a = flag then some b else argValue flag (b :: rest)
  | _ => none

/-- C8: in all three argument-building paths (optimized software,
optimized hardware, legacy) the keyframe-interval flag `-g` is followed by
`String(fps * 2)`, i.e. exactly twice the requested frame rate. -/
theorem keyframe_interval_twice_fps (u : String) (w h f b : Int) :
    ((buildFFmpegArgs u w h f b false)[30]? = some "-g" ∧
     (buildFFmpegArgs u w h f b false)[31]? = some (toString (f * 2))) ∧
    ((buildFFmpegArgs u w h f b true)[26]? = some "-g" ∧
     (buildFFmpegArgs u w h f b true)[27]? = some (toString (f * 2))) ∧
    ((legacyFFmpegArgs u w h f b)[16]? = some "-g" ∧
     (legacyFFmpegArgs u w h f b)[17]? = some (toString (f * 2))) :=
  ⟨⟨rfl, rfl⟩, ⟨rfl, rfl⟩, ⟨rfl, rfl⟩⟩

/-- C3 (amended): the optimized builder sets `-bufsize` to
`floor(bitrate / 2)` kilobits in both the hardware and the software
profile, but the legacy path sets `-bufsize` to `bitrate * 2` kilobits
(twice the `-b:v` value, not half of it). -/
theorem bufsize_half_optimized_double_legacy (u : String) (w h f b : Int) :
    ((buildFFmpegArgs u w h f b false)[18]? = some "-b:v" ∧
     (buildFFmpegArgs u w h f b false)[19]? = some (toString b ++ "k") ∧
     (buildFFmpegArgs u w h f b false)[22]? = some "-bufsize" ∧
     (buildFFmpegArgs u w h f b false)[23]? = some (toString (Int.fdiv b 2) ++ "k")) ∧
    ((buildFFmpegArgs u w h f b true)[14]? = some "-b:v" ∧
     (buildFFmpegArgs u w h f b true)[15]? = some (toString b ++ "k") ∧
     (buildFFmpegArgs u w h f b true)[18]? = some "-bufsize" ∧
     (buildFFmpegArgs u w h f b true)[19]? = some (toString (Int.fdiv b 2) ++ "k")) ∧
    ((legacyFFmpegArgs u w h f b)[8]? = some "-b:v" ∧
     (legacyFFmpegArgs u w h f b)[9]? = some (toString b ++ "k") ∧
     (legacyFFmpegArgs u w h f b)[12]? = some "-bufsize" ∧
     (legacyFFmpegArgs u w h f b)[13]? = some (toString (b * 2) ++ "k")) :=
  ⟨⟨rfl, rfl, rfl, rfl⟩, ⟨rfl, rfl, rfl, rfl⟩, ⟨rfl, rfl, rfl, rfl⟩⟩

/-- C3 (counterexample): for the Scenario-A-like config (bitrate 2500) the
legacy argument list carries `-b:v 2500k` but `-bufsize 5000k`, which is
not half of the bitrate (half would be `1250k`). -/
theorem legacy_bufsize_not_half :
    argValue "-b:v"
      (legacyFFmpegArgs "rtmp://ingest.example/live/abc123" 1280 720 30 2500) =
      some "2500k" ∧
    argValue "-bufsize"
      (legacyFFmpegArgs "rtmp://ingest.example/live/abc123" 1280 720 30 2500) =
      some "5000k" ∧
    ("5000k" : String) ≠ toString (Int.fdiv (2500 : Int) 2) ++ "k" :=
  ⟨rfl, rfl, by decide⟩

/-- Per-session entry stored in the `streams` Map:
`{ ffmpeg, startTime, bytesReceived, config }`.  The process handle is
embedded as a numeric pid (fresh per spawn); `config` is not needed by any
claim and is omitted from the entry (it is immutable after start). -/
structure StreamInfo where
  pid : Nat
  startTime : Int
  bytesReceived : Nat
deriving Repr, DecidableEq

/-- The `streams` Map (`socket.id -> stream info`), embedded as an
association list with JS `Map` replace-on-set / delete semantics. -/
abbrev Registry := List (String × StreamInfo)

/-- `Map.get`. -/
def mapGet : Registry → String → Option StreamInfo
  | [], _ => none
  | (k', v) :: rest, k => if k' = k then some v else mapGet rest k

/-- `Map.set`: replaces the value in place if the key is present,
appends otherwise. -/
def mapSet : Registry → String → StreamInfo → Registry
  | [], k, v => [(k, v)]
  | (k', v') :: rest, k, v =>
      if k' = k then (k, v) :: rest else (k', v') :: mapSet rest k v

/-- `Map.delete`. -/
def mapDelete : Registry → String → Registry
  | [], _ => []
  | (k', v) :: rest, k =>
      if k' = k then mapDelete rest k else (k', v) :: mapDelete rest k

/-- Events emitted back to a client over its socket. -/
inductive ClientEvent where
  | streamError (msg : String)
  | streamStarted
  | streamStopped (duration : Int) (bytesReceived : Nat)
deriving Repr, DecidableEq

/-- Observable side effects of the handler: socket emits, process spawns,
stdin writes, stdin closes (`stdin.end()`), and `kill('SIGTERM')`. -/
inductive Effect where
  | emit (sid : String) (ev : ClientEvent)
  | spawnProc (pid : Nat) (args : List String)
  | writeStdin (pid : Nat) (size : Nat)
  | endStdin (pid : Nat)
  | killProc (pid : Nat)
deriving Repr, DecidableEq

/-- Inputs the handler reacts to.  `spawnThrows` models `spawn` raising
synchronously (caught by the `try/catch`); `stdinWritable` models the
`stdin && !stdin.destroyed` check at chunk arrival; `procError` and
`procClose` are the ffmpeg `error` / `close` callbacks, which close over
the socket of the session that spawned the process. -/
inductive Event where
  | startStream (sid : String) (cfg : StreamConfig) (spawnThrows : Bool) (now : Int)
  | streamData (sid : String) (size : Nat) (stdinWritable : Bool)
  | stopStream (sid : String) (now : Int)
  | disconnect (sid : String) (now : Int)
  | procError (sid : String) (now : Int)
  | procClose (sid : String) (code : Option Int)
deriving Repr, DecidableEq

/-- Handler state: the registry plus a counter supplying fresh pids. -/
structure HandlerState where
  streams : Registry
  nextPid : Nat
deriving Repr, DecidableEq

/-- `Math.round((now - startTime) / 1000)`: JS `Math.round` is
floor(x + 1/2), embedded with `Int.fdiv`. -/
def jsRoundSecs (d : Int) : Int := Int.fdiv (2 * d + 1000) 2000

/-- `_stopStream`: no-op when no entry exists; otherwise closes stdin,
sends SIGTERM, emits the `stream-stopped` summary and deletes the entry. -/
def stopStreamOp (s : HandlerState) (sid : String) (now : Int) :
    HandlerState × List Effect :=
  match mapGet s.streams sid with
  | none => (s, [])
  | some info =>
      (⟨mapDelete s.streams sid, s.nextPid⟩,
       [.endStdin info.pid, .killProc info.pid,
        .emit sid (.streamStopped (jsRoundSecs (now - info.startTime))
          info.bytesReceived)])

/-- `_startStream` (optimized variant): rejects a falsy `rtmpUrl`;
otherwise stops any existing stream for the socket, builds the argument
list, spawns ffmpeg and registers the new entry, emitting
`stream-started`.  A synchronous `spawn` throw is caught and reported as
`stream-error` with nothing registered. -/
def startStreamOp (hw : Bool) (s : HandlerState) (sid : String)
    (cfg : StreamConfig) (spawnThrows : Bool) (now : Int) :
    HandlerState × List Effect :=
  let url := cfg.rtmpUrl.getD ""
  if url = "" then
    (s, [.emit sid (.streamError "RTMP URL is required")])
  else
    let r := stopStreamOp s sid now
    let args := buildFFmpegArgs (fullTargetUrl url cfg.streamKey)
      (cfg.width.getD 1920) (cfg.height.getD 1080) (cfg.fps.getD 30)
      (cfg.bitrate.getD 4500) hw
    if spawnThrows then
      (r.1, r.2 ++ [.emit sid (.streamError "Failed to start stream")])
    else
      (⟨mapSet r.1.streams sid ⟨r.1.nextPid, now, 0⟩, r.1.nextPid + 1⟩,
       r.2 ++ [.spawnProc r.1.nextPid args, .emit sid .streamStarted])

/-- `_handleData` (optimized variant): ignores chunks with no registered
entry; when the entry exists and stdin is not destroyed, writes the chunk
and adds its size to `bytesReceived`. -/
def handleDataOp (s : HandlerState) (sid : String) (size : Nat)
    (stdinWritable : Bool) : HandlerState × List Effect :=
  match mapGet s.streams sid with
  | none => (s, [])
  | some info =>
      if stdinWritable then
        (⟨mapSet s.streams sid
            ⟨info.pid, info.startTime, info.bytesReceived + size⟩, s.nextPid⟩,
         [.writeStdin info.pid size])
      else (s, [])

/-- The ffmpeg `error` callback: emits `stream-error` then runs
`_stopStream`. -/
def procErrorOp (s : HandlerState) (sid : String) (now : Int) :
    HandlerState × List Effect :=
  let r := stopStreamOp s sid now
  (r.1, .emit sid (.streamError "FFmpeg error") :: r.2)

/-- `String(code)` for the exit code of the `close` callback
(`null` when the process died from a signal). -/
def codeText : Option Int → String
  | some n => toString n
  | none => "null"

/-- The ffmpeg `close` callback: emits `stream-error` when the exit code
differs from 0 and an entry is still registered for the socket, then
deletes the entry. -/
def procCloseOp (s : HandlerState) (sid : String) (code : Option Int) :
    HandlerState × List Effect :=
  let fx : List Effect :=
    if code ≠ some 0 ∧ (mapGet s.streams sid).isSome then
      [.emit sid (.streamError
        ("Stream ended unexpectedly (code " ++ codeText code ++ ")"))]
    else []
  (⟨mapDelete s.streams sid, s.nextPid⟩, fx)

/-- One handler step: dispatch of the socket / process events wired in
`init` and `_startStream`.  `disconnect` runs `_stopStream`, exactly as
`stop-stream` does. -/
def step (hw : Bool) (s : HandlerState) : Event → HandlerState × List Effect
  | .startStream sid cfg st now => startStreamOp hw s sid cfg st now
  | .streamData sid size w => handleDataOp s sid size w
  | .stopStream sid now => stopStreamOp s sid now
  | .disconnect sid now => stopStreamOp s sid now
  | .procError sid now => procErrorOp s sid now
  | .procClose sid code => procCloseOp s sid code

/-- Fresh handler: empty registry. -/
def initState : HandlerState := ⟨[], 0⟩

/-- Run a sequence of events from an accumulator, concatenating effects. -/
def runFrom (hw : Bool) :
    HandlerState × List Effect → List Event → HandlerState × List Effect
  | acc, [] => acc
  | acc, e :: tr =>
      runFrom hw ((step hw acc.1 e).1, acc.2 ++ (step hw acc.1 e).2) tr

/-- Run a sequence of events from the fresh handler. -/
def runH (hw : Bool) (tr : List Event) : HandlerState × List Effect :=
  runFrom hw (initState, []) tr

/-- Size a single effect contributes to the bytes written to pid `q`. -/
def writeSize (q : Nat) : Effect → Nat
  | .writeStdin p n => if p = q then n else 0
  | _ => 0

/-- Total bytes written to the stdin of pid `q` over an effect history. -/
def sumWrites (fx : List Effect) (q : Nat) : Nat :=
  (fx.map (writeSize q)).sum

/-- Is this effect a `stream-error` emit to `sid`? -/
def isErrorEmit (sid : String) : Effect → Bool
  | .emit s (.streamError _) => s == sid
  | _ => false

/-- Is this effect a `stream-stopped` (terminal summary) emit to `sid`? -/
def isStoppedEmit (sid : String) : Effect → Bool
  | .emit s (.streamStopped _ _) => s == sid
  | _ => false

/-- Is this effect a process spawn? -/
def isSpawn : Effect → Bool
  | .spawnProc _ _ => true
  | _ => false

/-- Number of `stream-error` events emitted to `sid`. -/
def countErrors (sid : String) (fx : List Effect) : Nat :=
  (fx.filter (isErrorEmit sid)).length

/-- Number of `stream-stopped` events emitted to `sid`. -/
def countStopped (sid : String) (fx : List Effect) : Nat :=
  (fx.filter (isStoppedEmit sid)).length

/-! ### Registry lemmas -/

/-- Keys of the registry, in insertion order. -/
def keysOf (m : Registry) : List String := m.map Prod.fst

/-- Pids currently referenced by the registry. -/
def pidsOf (m : Registry) : List Nat := m.map (fun p => p.2.pid)

theorem mapGet_mapDelete_self (m : Registry) (k : String) :
    mapGet (mapDelete m k) k = none := by
  induction m with
  | nil => rfl
  | cons hd tl ih =>
      obtain ⟨a, b⟩ := hd
      by_cases hh : a = k <;> simp [mapDelete, mapGet, hh, ih]

theorem mapGet_mapDelete_ne (m : Registry) {k k' : String} (h : k' ≠ k) :
    mapGet (mapDelete m k) k' = mapGet m k' := by
  induction m with
  | nil => rfl
  | cons hd tl ih =>
      obtain ⟨a, b⟩ := hd
      by_cases hh : a = k
      · subst hh
        simp [mapDelete, mapGet, Ne.symm h, ih]
      · simp [mapDelete, mapGet, hh, ih]

theorem mapGet_mapSet_self (m : Registry) (k : String) (v : StreamInfo) :
    mapGet (mapSet m k v) k = some v := by
  induction m with
  | nil => simp [mapSet, mapGet]
  | cons hd tl ih =>
      obtain ⟨a, b⟩ := hd
      by_cases hh : a = k
      · subst hh
        simp [mapSet, mapGet]
      · simp [mapSet, mapGet, hh, ih]

theorem mapGet_mapSet_ne (m : Registry) {k k' : String} (v : StreamInfo)
    (h : k' ≠ k) : mapGet (mapSet m k v) k' = mapGet m k' := by
  induction m with
  | nil => simp [mapSet, mapGet, Ne.symm h]
  | cons hd tl ih =>
      obtain ⟨a, b⟩ := hd
      by_cases hh : a = k
      · subst hh
        simp [mapSet, mapGet, Ne.symm h]
      · simp [mapSet, mapGet, hh, ih]

theorem mem_of_mapGet {m : Registry} {k : String} {v : StreamInfo}
    (h : mapGet m k = some v) : (k, v) ∈ m := by
  induction m with
  | nil => simp [mapGet] at h
  | cons hd tl ih =>
      obtain ⟨a, b⟩ := hd
      by_cases hh : a = k
      · subst hh
        simp [mapGet] at h
        subst h
        exact List.mem_cons_self _ _
      · simp [mapGet, hh] at h
        exact List.mem_cons_of_mem _ (ih h)

theorem mem_mapDelete {m : Registry} {k : String} {p : String × StreamInfo}
    (h : p ∈ mapDelete m k) : p ∈ m ∧ p.1 ≠ k := by
  induction m with
  | nil => simp [mapDelete] at h
  | cons hd tl ih =>
      obtain ⟨a, b⟩ := hd
      by_cases hh : a = k
      · rw [mapDelete, if_pos hh] at h
        exact ⟨List.mem_cons_of_mem _ (ih h).1, (ih h).2⟩
      · rw [mapDelete, if_neg hh] at h
        rcases List.mem_cons.mp h with h' | h'
        · subst h'
          exact ⟨List.mem_cons_self _ _, hh⟩
        · exact ⟨List.mem_cons_of_mem _ (ih h').1, (ih h').2⟩

theorem mem_mapSet {m : Registry} {k : String} {v : StreamInfo}
    {p : String × StreamInfo} (h : p ∈ mapSet m k v) :
    p = (k, v) ∨ p ∈ m := by
  induction m with
  | nil =>
      rw [mapSet] at h
      exact Or.inl (List.mem_singleton.mp h)
  | cons hd tl ih =>
      obtain ⟨a, b⟩ := hd
      by_cases hh : a = k
      · rw [mapSet, if_pos hh] at h
        rcases List.mem_cons.mp h with h' | h'
        · exact Or.inl h'
        · exact Or.inr (List.mem_cons_of_mem _ h')
      · rw [mapSet, if_neg hh] at h
        rcases List.mem_cons.mp h with h' | h'
        · subst h'
          exact Or.inr (List.mem_cons_self _ _)
        · rcases ih h' with h'' | h''
          · exact Or.inl h''
          · exact Or.inr (List.mem_cons_of_mem _ h'')

theorem mapDelete_sublist (m : Registry) (k : String) :
    List.Sublist (mapDelete m k) m := by
  induction m with
  | nil => exact List.Sublist.refl _
  | cons hd tl ih =>
      obtain ⟨a, b⟩ := hd
      by_cases hh : a = k
      · rw [mapDelete, if_pos hh]
        exact List.Sublist.cons _ ih
      · rw [mapDelete, if_neg hh]
        exact List.Sublist.cons₂ _ ih

theorem mapGet_eq_none_iff {m : Registry} {k : String} :
    mapGet m k = none ↔ k ∉ keysOf m := by
  induction m with
  | nil => simp [mapGet, keysOf]
  | cons hd tl ih =>
      obtain ⟨a, b⟩ := hd
      by_cases hh : a = k
      · subst hh
        simp [mapGet, keysOf]
      · have h2 : k ≠ a := fun e => hh e.symm
        simp [mapGet, keysOf, hh, h2] at ih ⊢
        exact ih

theorem keysOf_mapSet_of_not_mem {m : Registry} {k : String}
    (h : k ∉ keysOf m) (v : StreamInfo) :
    keysOf (mapSet m k v) = keysOf m ++ [k] := by
  induction m with
  | nil => simp [mapSet, keysOf]
  | cons hd tl ih =>
      obtain ⟨a, b⟩ := hd
      have h1 : a ≠ k := by
        intro e
        exact h (by simp [keysOf, e])
      have h2 : k ∉ keysOf tl := by
        intro e
        exact h (by simp [keysOf]; exact Or.inr (by simpa [keysOf] using e))
      have ih' := ih h2
      simp only [keysOf, List.map_cons] at ih' ⊢
      rw [mapSet, if_neg h1]
      simp only [List.map_cons, List.cons_append]
      rw [ih']

theorem keysOf_mapSet_of_mem {m : Registry} {k : String}
    (h : k ∈ keysOf m) (v : StreamInfo) :
    keysOf (mapSet m k v) = keysOf m := by
  induction m with
  | nil => simp [keysOf] at h
  | cons hd tl ih =>
      obtain ⟨a, b⟩ := hd
      by_cases hh : a = k
      · subst hh
        rw [mapSet, if_pos rfl]
        simp [keysOf]
      · have h2 : k ∈ keysOf tl := by
          simp [keysOf] at h
          rcases h with h' | h'
          · exact absurd h'.symm hh
          · simpa [keysOf] using h'
        have ih' := ih h2
        rw [mapSet, if_neg hh]
        simp only [keysOf, List.map_cons] at ih' ⊢
        rw [ih']

theorem pidsOf_mapSet_of_not_mem {m : Registry} {k : String}
    (h : k ∉ keysOf m) (v : StreamInfo) :
    pidsOf (mapSet m k v) = pidsOf m ++ [v.pid] := by
  induction m with
  | nil => simp [mapSet, pidsOf]
  | cons hd tl ih =>
      obtain ⟨a, b⟩ := hd
      have h1 : a ≠ k := by
        intro e
        exact h (by simp [keysOf, e])
      have h2 : k ∉ keysOf tl := by
        intro e
        exact h (by simp [keysOf]; exact Or.inr (by simpa [keysOf] using e))
      have ih' := ih h2
      simp only [pidsOf, List.map_cons] at ih' ⊢
      rw [mapSet, if_neg h1]
      simp only [List.map_cons, List.cons_append]
      rw [ih']

theorem pidsOf_mapSet_same_pid {m : Registry} {k : String} {w : StreamInfo}
    (hg : mapGet m k = some w) (v : StreamInfo) (hpid : v.pid = w.pid) :
    pidsOf (mapSet m k v) = pidsOf m := by
  induction m with
  | nil => simp [mapGet] at hg
  | cons hd tl ih =>
      obtain ⟨a, b⟩ := hd
      by_cases hh : a = k
      · subst hh
        simp [mapGet] at hg
        subst hg
        rw [mapSet, if_pos rfl]
        simp [pidsOf, hpid]
      · simp [mapGet, hh] at hg
        have ih' := ih hg
        rw [mapSet, if_neg hh]
        simp only [pidsOf, List.map_cons] at ih' ⊢
        rw [ih']

theorem sumWrites_append (fx gx : List Effect) (q : Nat) :
    sumWrites (fx ++ gx) q = sumWrites fx q + sumWrites gx q := by
  simp [sumWrites]

theorem sumWrites_eq_zero {fx : List Effect} {p : Nat}
    (h : ∀ q n, Effect.writeStdin q n ∈ fx → q ≠ p) :
    sumWrites fx p = 0 := by
  induction fx with
  | nil => rfl
  | cons e tl ih =>
      have ht := ih fun q n hm => h q n (List.mem_cons_of_mem _ hm)
      have he : writeSize p e = 0 := by
        cases e with
        | writeStdin q n =>
            have hq := h q n (List.mem_cons_self _ _)
            simp [writeSize, hq]
        | emit s ev => rfl
        | spawnProc a b => rfl
        | endStdin a => rfl
        | killProc a => rfl
      simp only [sumWrites, List.map_cons, List.sum_cons, he, Nat.zero_add]
      simpa [sumWrites] using ht

/-! ### Equation lemmas for the handler operations -/

theorem stopStreamOp_none {s : HandlerState} {sid : String}
    (hg : mapGet s.streams sid = none) (now : Int) :
    stopStreamOp s sid now = (s, []) := by
  simp [stopStreamOp, hg]

theorem stopStreamOp_some {s : HandlerState} {sid : String}
    {info : StreamInfo} (hg : mapGet s.streams sid = some info) (now : Int) :
    stopStreamOp s sid now =
      (⟨mapDelete s.streams sid, s.nextPid⟩,
       [.endStdin info.pid, .killProc info.pid,
        .emit sid (.streamStopped (jsRoundSecs (now - info.startTime))
          info.bytesReceived)]) := by
  simp [stopStreamOp, hg]

theorem handleDataOp_none {s : HandlerState} {sid : String}
    (hg : mapGet s.streams sid = none) (size : Nat) (w : Bool) :
    handleDataOp s sid size w = (s, []) := by
  simp [handleDataOp, hg]

theorem handleDataOp_notWritable {s : HandlerState} {sid : String}
    {info : StreamInfo} (hg : mapGet s.streams sid = some info) (size : Nat) :
    handleDataOp s sid size false = (s, []) := by
  simp [handleDataOp, hg]

theorem handleDataOp_write {s : HandlerState} {sid : String}
    {info : StreamInfo} (hg : mapGet s.streams sid = some info) (size : Nat) :
    handleDataOp s sid size true =
      (⟨mapSet s.streams sid
          ⟨info.pid, info.startTime, info.bytesReceived + size⟩, s.nextPid⟩,
       [.writeStdin info.pid size]) := by
  simp [handleDataOp, hg]

/-- The argument list `_startStream` hands to `spawn` for a given config. -/
def argsFor (hw : Bool) (cfg : StreamConfig) : List String :=
  buildFFmpegArgs (fullTargetUrl (cfg.rtmpUrl.getD "") cfg.streamKey)
    (cfg.width.getD 1920) (cfg.height.getD 1080) (cfg.fps.getD 30)
    (cfg.bitrate.getD 4500) hw

theorem startStreamOp_invalidUrl {cfg : StreamConfig}
    (hurl : cfg.rtmpUrl.getD "" = "") (hw : Bool) (s : HandlerState)
    (sid : String) (st : Bool) (now : Int) :
    startStreamOp hw s sid cfg st now =
      (s, [.emit sid (.streamError "RTMP URL is required")]) := by
  simp [startStreamOp, hurl]

theorem startStreamOp_throws {cfg : StreamConfig}
    (hurl : ¬ cfg.rtmpUrl.getD "" = "") (hw : Bool) (s : HandlerState)
    (sid : String) (now : Int) :
    startStreamOp hw s sid cfg true now =
      ((stopStreamOp s sid now).1,
       (stopStreamOp s sid now).2 ++
         [.emit sid (.streamError "Failed to start stream")]) := by
  simp [startStreamOp, hurl]

theorem startStreamOp_ok {cfg : StreamConfig}
    (hurl : ¬ cfg.rtmpUrl.getD "" = "") (hw : Bool) (s : HandlerState)
    (sid : String) (now : Int) :
    startStreamOp hw s sid cfg false now =
      (⟨mapSet (stopStreamOp s sid now).1.streams sid
          ⟨(stopStreamOp s sid now).1.nextPid, now, 0⟩,
        (stopStreamOp s sid now).1.nextPid + 1⟩,
       (stopStreamOp s sid now).2 ++
         [.spawnProc (stopStreamOp s sid now).1.nextPid (argsFor hw cfg),
          .emit sid .streamStarted]) := by
  simp [startStreamOp, argsFor, hurl]

theorem procCloseOp_quiet {s : HandlerState} {sid : String} {code : Option Int}
    (h : ¬ (code ≠ some 0 ∧ (mapGet s.streams sid).isSome)) :
    procCloseOp s sid code = (⟨mapDelete s.streams sid, s.nextPid⟩, []) := by
  simp only [procCloseOp, if_neg h]

theorem procCloseOp_err {s : HandlerState} {sid : String} {code : Option Int}
    (h : code ≠ some 0 ∧ (mapGet s.streams sid).isSome) :
    procCloseOp s sid code =
      (⟨mapDelete s.streams sid, s.nextPid⟩,
       [.emit sid (.streamError
         ("Stream ended unexpectedly (code " ++ codeText code ++ ")"))]) := by
  simp only [procCloseOp, if_pos h]

/-! ### Reachability invariant -/

/-- An effect list containing no stdin writes. -/
def NoWrites (gx : List Effect) : Prop :=
  ∀ q n, Effect.writeStdin q n ∉ gx

/-- Invariant tying a handler state to its effect history: registry keys
are unique (JS `Map`), pids of registered sessions are unique and below
the fresh-pid counter, every write in the history went to an
already-allocated pid, and each session's `bytesReceived` equals the total
bytes written to its process's stdin. -/
def Inv (a : HandlerState × List Effect) : Prop :=
  (keysOf a.1.streams).Nodup ∧
  (pidsOf a.1.streams).Nodup ∧
  (∀ p ∈ a.1.streams, p.2.pid < a.1.nextPid) ∧
  (∀ q n, Effect.writeStdin q n ∈ a.2 → q < a.1.nextPid) ∧
  (∀ p ∈ a.1.streams, p.2.bytesReceived = sumWrites a.2 p.2.pid)

theorem sumWrites_eq_zero_of_noWrites {gx : List Effect} (h : NoWrites gx)
    (q : Nat) : sumWrites gx q = 0 :=
  sumWrites_eq_zero fun q' n hm => absurd hm (h q' n)

theorem mem_keys_of_mapGet {m : Registry} {k : String} {v : StreamInfo}
    (h : mapGet m k = some v) : k ∈ keysOf m :=
  List.mem_map_of_mem Prod.fst (mem_of_mapGet h)

theorem mem_mapSet_strong {m : Registry} {k : String} {v : StreamInfo}
    {p : String × StreamInfo} (hk : (keysOf m).Nodup) (h : p ∈ mapSet m k v) :
    p = (k, v) ∨ (p ∈ m ∧ p.1 ≠ k) := by
  induction m with
  | nil =>
      rw [mapSet] at h
      exact Or.inl (List.mem_singleton.mp h)
  | cons hd tl ih =>
      obtain ⟨a, b⟩ := hd
      have hk' := List.nodup_cons.mp (show (a :: keysOf tl).Nodup from hk)
      have hk1 : a ∉ keysOf tl := hk'.1
      have hk2 : (keysOf tl).Nodup := hk'.2
      by_cases hh : a = k
      · subst hh
        rw [mapSet, if_pos rfl] at h
        rcases List.mem_cons.mp h with h' | h'
        · exact Or.inl h'
        · refine Or.inr ⟨List.mem_cons_of_mem _ h', fun e => hk1 ?_⟩
          rw [← e]
          exact List.mem_map_of_mem Prod.fst h'
      · rw [mapSet, if_neg hh] at h
        rcases List.mem_cons.mp h with h' | h'
        · subst h'
          exact Or.inr ⟨List.mem_cons_self _ _, hh⟩
        · rcases ih hk2 h' with h'' | h''
          · exact Or.inl h''
          · exact Or.inr ⟨List.mem_cons_of_mem _ h''.1, h''.2⟩

theorem mem_pidsOf {m : Registry} {q : Nat} (h : q ∈ pidsOf m) :
    ∃ p ∈ m, p.2.pid = q := by
  simpa [pidsOf] using h

/-- Appending write-free effects without touching the state keeps `Inv`. -/
theorem inv_keep_noWrites {s : HandlerState} {fx gx : List Effect}
    (hI : Inv (s, fx)) (hg : NoWrites gx) : Inv (s, fx ++ gx) := by
  obtain ⟨h1, h2, h3, h4, h5⟩ := hI
  refine ⟨h1, h2, h3, ?_, ?_⟩
  · intro q n hm
    rcases List.mem_append.mp hm with hm | hm
    · exact h4 q n hm
    · exact absurd hm (hg q n)
  · intro p hp
    rw [sumWrites_append, sumWrites_eq_zero_of_noWrites hg]
    simpa using h5 p hp

/-- Deleting a registry entry and appending write-free effects keeps
`Inv`. -/
theorem inv_delete_noWrites {s : HandlerState} {fx gx : List Effect}
    (hI : Inv (s, fx)) (sid : String) (hg : NoWrites gx) :
    Inv (⟨mapDelete s.streams sid, s.nextPid⟩, fx ++ gx) := by
  obtain ⟨h1, h2, h3, h4, h5⟩ := hI
  refine ⟨?_, ?_, ?_, ?_, ?_⟩
  · exact h1.sublist (List.Sublist.map _ (mapDelete_sublist _ _))
  · exact h2.sublist (List.Sublist.map _ (mapDelete_sublist _ _))
  · intro p hp
    exact h3 p (mem_mapDelete hp).1
  · intro q n hm
    rcases List.mem_append.mp hm with hm | hm
    · exact h4 q n hm
    · exact absurd hm (hg q n)
  · intro p hp
    rw [sumWrites_append, sumWrites_eq_zero_of_noWrites hg]
    simpa using h5 p (mem_mapDelete hp).1

theorem stopStreamOp_noWrites (s : HandlerState) (sid : String) (now : Int) :
    NoWrites (stopStreamOp s sid now).2 := by
  intro q n
  rw [stopStreamOp]
  cases mapGet s.streams sid <;> simp

theorem stopStreamOp_inv {s : HandlerState} {fx : List Effect}
    (hI : Inv (s, fx)) (sid : String) (now : Int) :
    Inv ((stopStreamOp s sid now).1, fx ++ (stopStreamOp s sid now).2) := by
  rw [stopStreamOp]
  cases hg : mapGet s.streams sid with
  | none => exact inv_keep_noWrites hI (by intro q n; simp)
  | some info => exact inv_delete_noWrites hI sid (by intro q n; simp)

theorem stopStreamOp_mapGet_self (s : HandlerState) (sid : String)
    (now : Int) : mapGet (stopStreamOp s sid now).1.streams sid = none := by
  rw [stopStreamOp]
  cases hg : mapGet s.streams sid with
  | none => exact hg
  | some info => exact mapGet_mapDelete_self _ _

theorem stopStreamOp_nextPid (s : HandlerState) (sid : String) (now : Int) :
    (stopStreamOp s sid now).1.nextPid = s.nextPid := by
  rw [stopStreamOp]
  cases mapGet s.streams sid <;> rfl

theorem handleDataOp_inv {s : HandlerState} {fx : List Effect}
    (hI : Inv (s, fx)) (sid : String) (size : Nat) (w : Bool) :
    Inv ((handleDataOp s sid size w).1, fx ++ (handleDataOp s sid size w).2) := by
  cases hg : mapGet s.streams sid with
  | none =>
      rw [handleDataOp_none hg]
      exact inv_keep_noWrites hI (by intro q n; simp)
  | some info =>
      cases w with
      | false =>
          rw [handleDataOp_notWritable hg]
          exact inv_keep_noWrites hI (by intro q n; simp)
      | true =>
          rw [handleDataOp_write hg]
          obtain ⟨h1, h2, h3, h4, h5⟩ := hI
          simp only at h1 h2 h3 h4 h5
          have hmem : (sid, info) ∈ s.streams := mem_of_mapGet hg
          have hpid : info.pid < s.nextPid := h3 _ hmem
          refine ⟨?_, ?_, ?_, ?_, ?_⟩
          · simp only
            rw [keysOf_mapSet_of_mem (mem_keys_of_mapGet hg)]
            exact h1
          · simp only
            rw [pidsOf_mapSet_same_pid hg
              ⟨info.pid, info.startTime, info.bytesReceived + size⟩ rfl]
            exact h2
          · intro p hp
            simp only at hp ⊢
            rcases mem_mapSet hp with h' | h'
            · subst h'
              exact hpid
            · exact h3 p h'
          · intro q n hm
            simp only at hm ⊢
            rcases List.mem_append.mp hm with hm | hm
            · exact h4 q n hm
            · simp at hm
              rw [hm.1]
              exact hpid
          · intro p hp
            simp only at hp ⊢
            rcases mem_mapSet_strong h1 hp with h' | h'
            · subst h'
              simp only
              rw [sumWrites_append, ← h5 _ hmem]
              simp [sumWrites, writeSize]
            · have hne : p.2.pid ≠ info.pid := by
                intro e
                have := List.inj_on_of_nodup_map h2 h'.1 hmem (by simpa using e)
                exact h'.2 (by rw [this])
              have hne' : info.pid ≠ p.2.pid := fun e => hne e.symm
              rw [sumWrites_append]
              have hz : sumWrites [Effect.writeStdin info.pid size] p.2.pid = 0 := by
                simp [sumWrites, writeSize, hne']
              rw [hz]
              simpa using h5 p h'.1

theorem startStreamOp_inv {s : HandlerState} {fx : List Effect}
    (hI : Inv (s, fx)) (hw : Bool) (sid : String) (cfg : StreamConfig)
    (st : Bool) (now : Int) :
    Inv ((startStreamOp hw s sid cfg st now).1,
      fx ++ (startStreamOp hw s sid cfg st now).2) := by
  by_cases hurl : cfg.rtmpUrl.getD "" = ""
  · rw [startStreamOp_invalidUrl hurl]
    exact inv_keep_noWrites hI (by intro q n; simp)
  · have hstop := stopStreamOp_inv hI sid now
    have hnone := stopStreamOp_mapGet_self s sid now
    have hnotmem : sid ∉ keysOf (stopStreamOp s sid now).1.streams :=
      mapGet_eq_none_iff.mp hnone
    cases st with
    | true =>
        rw [startStreamOp_throws hurl]
        rw [← List.append_assoc]
        exact inv_keep_noWrites hstop (by intro q n; simp)
    | false =>
        rw [startStreamOp_ok hurl]
        rw [← List.append_assoc]
        obtain ⟨h1, h2, h3, h4, h5⟩ := hstop
        simp only at h1 h2 h3 h4 h5
        set r := stopStreamOp s sid now with hr
        refine ⟨?_, ?_, ?_, ?_, ?_⟩
        · simp only
          rw [keysOf_mapSet_of_not_mem hnotmem]
          simp [List.nodup_append, h1]
          intro hmem
          exact hnotmem hmem
        · simp only
          rw [pidsOf_mapSet_of_not_mem hnotmem]
          simp [List.nodup_append, h2]
          intro hmem
          obtain ⟨p, hp, hpe⟩ := mem_pidsOf hmem
          exact absurd hpe (Nat.ne_of_lt (h3 p hp))
        · intro p hp
          simp only at hp ⊢
          rcases mem_mapSet hp with h' | h'
          · subst h'
            exact Nat.lt_succ_self _
          · exact Nat.lt_succ_of_lt (h3 p h')
        · intro q n hm
          simp only at hm ⊢
          rcases List.mem_append.mp hm with hm | hm
          · exact Nat.lt_succ_of_lt (h4 q n hm)
          · simp at hm
        · intro p hp
          simp only at hp ⊢
          rcases mem_mapSet_strong h1 hp with h' | h'
          · subst h'
            simp only
            rw [sumWrites_append]
            have hz : sumWrites (fx ++ r.2) r.1.nextPid = 0 :=
              sumWrites_eq_zero fun q n hm => Nat.ne_of_lt (h4 q n hm)
            have hz2 : sumWrites
                [Effect.spawnProc r.1.nextPid (argsFor hw cfg),
                 Effect.emit sid ClientEvent.streamStarted] r.1.nextPid = 0 := by
              simp [sumWrites, writeSize]
            rw [hz, hz2]
          · rw [sumWrites_append]
            have hz2 : sumWrites
                [Effect.spawnProc r.1.nextPid (argsFor hw cfg),
                 Effect.emit sid ClientEvent.streamStarted] p.2.pid = 0 := by
              simp [sumWrites, writeSize]
            rw [hz2]
            simpa using h5 p h'.1

theorem procErrorOp_inv {s : HandlerState} {fx : List Effect}
    (hI : Inv (s, fx)) (sid : String) (now : Int) :
    Inv ((procErrorOp s sid now).1, fx ++ (procErrorOp s sid now).2) := by
  rw [procErrorOp]
  have hI' : Inv (s, fx ++ [Effect.emit sid (ClientEvent.streamError "FFmpeg error")]) :=
    inv_keep_noWrites hI (by intro q n; simp)
  have := stopStreamOp_inv hI' sid now
  simpa [List.append_assoc] using this

theorem procCloseOp_inv {s : HandlerState} {fx : List Effect}
    (hI : Inv (s, fx)) (sid : String) (code : Option Int) :
    Inv ((procCloseOp s sid code).1, fx ++ (procCloseOp s sid code).2) := by
  rw [procCloseOp]
  refine inv_delete_noWrites hI sid ?_
  intro q n
  split <;> simp

theorem step_inv {s : HandlerState} {fx : List Effect} (hI : Inv (s, fx))
    (hw : Bool) (e : Event) :
    Inv ((step hw s e).1, fx ++ (step hw s e).2) := by
  cases e with
  | startStream sid cfg st now => exact startStreamOp_inv hI hw sid cfg st now
  | streamData sid size w => exact handleDataOp_inv hI sid size w
  | stopStream sid now => exact stopStreamOp_inv hI sid now
  | disconnect sid now => exact stopStreamOp_inv hI sid now
  | procError sid now => exact procErrorOp_inv hI sid now
  | procClose sid code => exact procCloseOp_inv hI sid code

theorem runFrom_inv (hw : Bool) :
    ∀ (tr : List Event) (acc : HandlerState × List Effect),
      Inv acc → Inv (runFrom hw acc tr)
  | [], acc, h => h
  | e :: tr, acc, h => runFrom_inv hw tr _ (step_inv h hw e)

theorem initState_inv : Inv (initState, []) := by
  refine ⟨?_, ?_, ?_, ?_, ?_⟩ <;> simp [initState, keysOf, pidsOf]

theorem runH_inv (hw : Bool) (tr : List Event) : Inv (runH hw tr) :=
  runFrom_inv hw tr _ initState_inv

theorem runFrom_append (hw : Bool) :
    ∀ (tr tr' : List Event) (acc : HandlerState × List Effect),
      runFrom hw acc (tr ++ tr') = runFrom hw (runFrom hw acc tr) tr'
  | [], _, _ => rfl
  | _ :: tr, tr', acc => runFrom_append hw tr tr' _

theorem runH_append (hw : Bool) (tr tr' : List Event) :
    runH hw (tr ++ tr') = runFrom hw (runH hw tr) tr' :=
  runFrom_append hw tr tr' _

/-! ### Claim theorems -/

/-- The Scenario-A start config:
`{targetUrl: rtmp://ingest.example/live, streamKey: abc123, width:1280,
height:720, fps:30, bitrateKbps:2500}`. -/
def cfgA : StreamConfig :=
  ⟨some "rtmp://ingest.example/live", some "abc123",
   some 1280, some 720, some 30, some 2500⟩

/-- Scenario A: start, then three chunks of sizes 1000, 2000, 1500. -/
def scenarioA : List Event :=
  [.startStream "c" cfgA false 0, .streamData "c" 1000 true,
   .streamData "c" 2000 true, .streamData "c" 1500 true]

/-- C1: (i) over every event trace the registry holds at most one entry
per connection identity (its key list stays duplicate-free); (ii) a start
request for an identity with a registered session first tears the old
session down — closes its stdin, SIGTERMs its process, deletes its
registry entry — and only then spawns the new process and registers the
new session. -/
theorem single_session_per_identity :
    (∀ (hw : Bool) (tr : List Event),
       (keysOf (runH hw tr).1.streams).Nodup) ∧
    (∀ (hw : Bool) (s : HandlerState) (sid : String) (info : StreamInfo)
       (cfg : StreamConfig) (now : Int),
       mapGet s.streams sid = some info →
       ¬ cfg.rtmpUrl.getD "" = "" →
       step hw s (.startStream sid cfg false now) =
         (⟨mapSet (mapDelete s.streams sid) sid ⟨s.nextPid, now, 0⟩,
           s.nextPid + 1⟩,
          [.endStdin info.pid, .killProc info.pid,
           .emit sid (.streamStopped (jsRoundSecs (now - info.startTime))
             info.bytesReceived),
           .spawnProc s.nextPid (argsFor hw cfg),
           .emit sid .streamStarted])) := by
  constructor
  · intro hw tr
    exact (runH_inv hw tr).1
  · intro hw s sid info cfg now hg hurl
    simp only [step]
    rw [startStreamOp_ok hurl, stopStreamOp_some hg]
    rfl

/-- Witness for C1 at a concrete registry holding a session for `"c"`. -/
theorem single_session_per_identity_witness :
    step false ⟨[("c", ⟨0, 0, 0⟩)], 1⟩ (.startStream "c" cfgA false 5) =
      (⟨mapSet (mapDelete [("c", ⟨0, 0, 0⟩)] "c") "c" ⟨1, 5, 0⟩, 2⟩,
       [.endStdin 0, .killProc 0,
        .emit "c" (.streamStopped (jsRoundSecs (5 - 0)) 0),
        .spawnProc 1 (argsFor false cfgA),
        .emit "c" .streamStarted]) :=
  single_session_per_identity.2 false ⟨[("c", ⟨0, 0, 0⟩)], 1⟩ "c" ⟨0, 0, 0⟩
    cfgA 5 (by decide) (by decide)

/-- C2: (i) for every reachable state, each registered session's
`bytesReceived` equals the total bytes written to its process's stdin;
(ii) the counter is monotone: extending the trace by any event never
decreases the counter of a surviving session (same process); (iii) in
Scenario A, after three chunks of sizes 1000, 2000, 1500 the session's
counter equals 4500. -/
theorem bytesIngested_sum_monotone :
    (∀ (hw : Bool) (tr : List Event) (sid : String) (info : StreamInfo),
       mapGet (runH hw tr).1.streams sid = some info →
       info.bytesReceived = sumWrites (runH hw tr).2 info.pid) ∧
    (∀ (hw : Bool) (tr : List Event) (e : Event) (sid : String)
       (info info' : StreamInfo),
       mapGet (runH hw tr).1.streams sid = some info →
       mapGet (runH hw (tr ++ [e])).1.streams sid = some info' →
       info'.pid = info.pid →
       info.bytesReceived ≤ info'.bytesReceived) ∧
    mapGet (runH false scenarioA).1.streams "c" = some ⟨0, 0, 4500⟩ := by
  refine ⟨?_, ?_, by decide⟩
  · intro hw tr sid info hg
    exact (runH_inv hw tr).2.2.2.2 _ (mem_of_mapGet hg)
  · intro hw tr e sid info info' hg hg' hpid
    have h1 := (runH_inv hw tr).2.2.2.2 _ (mem_of_mapGet hg)
    have h2 := (runH_inv hw (tr ++ [e])).2.2.2.2 _ (mem_of_mapGet hg')
    have heq : runH hw (tr ++ [e]) =
        ((step hw (runH hw tr).1 e).1,
         (runH hw tr).2 ++ (step hw (runH hw tr).1 e).2) := by
      rw [runH_append]
      rfl
    rw [heq] at h2
    simp only at h1 h2
    rw [hpid, sumWrites_append] at h2
    rw [h1, h2]
    exact Nat.le_add_right _ _

/-- Witness for C2: the sum and monotonicity parts applied in Scenario A
(counter 4500, then one more 1000-byte chunk). -/
theorem bytesIngested_sum_monotone_witness :
    (⟨0, 0, 4500⟩ : StreamInfo).bytesReceived =
      sumWrites (runH false scenarioA).2 (⟨0, 0, 4500⟩ : StreamInfo).pid ∧
    (⟨0, 0, 4500⟩ : StreamInfo).bytesReceived ≤
      (⟨0, 0, 5500⟩ : StreamInfo).bytesReceived :=
  ⟨bytesIngested_sum_monotone.1 false scenarioA "c" ⟨0, 0, 4500⟩ (by decide),
   bytesIngested_sum_monotone.2.1 false scenarioA
     (.streamData "c" 1000 true) "c" ⟨0, 0, 4500⟩ ⟨0, 0, 5500⟩
     (by decide) (by decide) rfl⟩

/-- C4 (amended): when the encoder of a registered session exits with a
code other than 0, the handler emits exactly one error event to the
client and removes the session from the registry — but it emits no
terminal summary (`stream-stopped`) event on this path. -/
theorem abnormal_exit_one_error_no_summary :
    ∀ (hw : Bool) (s : HandlerState) (sid : String) (info : StreamInfo)
      (code : Option Int),
      mapGet s.streams sid = some info → ¬ code = some 0 →
      step hw s (.procClose sid code) =
        (⟨mapDelete s.streams sid, s.nextPid⟩,
         [.emit sid (.streamError
           ("Stream ended unexpectedly (code " ++ codeText code ++ ")"))]) ∧
      countErrors sid (step hw s (.procClose sid code)).2 = 1 ∧
      countStopped sid (step hw s (.procClose sid code)).2 = 0 ∧
      mapGet (step hw s (.procClose sid code)).1.streams sid = none := by
  intro hw s sid info code hg hc
  have hcond : code ≠ some 0 ∧ (mapGet s.streams sid).isSome := by
    rw [hg]
    exact ⟨hc, rfl⟩
  have he : step hw s (.procClose sid code) =
      (⟨mapDelete s.streams sid, s.nextPid⟩,
       [.emit sid (.streamError
         ("Stream ended unexpectedly (code " ++ codeText code ++ ")"))]) := by
    simp only [step]
    exact procCloseOp_err hcond
  refine ⟨he, ?_, ?_, ?_⟩
  · rw [he]
    simp [countErrors, isErrorEmit]
  · rw [he]
    simp [countStopped, isStoppedEmit]
  · rw [he]
    exact mapGet_mapDelete_self _ _

/-- Witness for C4's amended theorem at a concrete Live session. -/
theorem abnormal_exit_one_error_no_summary_witness :
    step false ⟨[("c", ⟨0, 0, 4500⟩)], 1⟩ (.procClose "c" (some 1)) =
      (⟨mapDelete [("c", ⟨0, 0, 4500⟩)] "c", 1⟩,
       [.emit "c" (.streamError
         ("Stream ended unexpectedly (code " ++ codeText (some 1) ++ ")"))]) ∧
    countErrors "c"
      (step false ⟨[("c", ⟨0, 0, 4500⟩)], 1⟩ (.procClose "c" (some 1))).2 = 1 ∧
    countStopped "c"
      (step false ⟨[("c", ⟨0, 0, 4500⟩)], 1⟩ (.procClose "c" (some 1))).2 = 0 ∧
    mapGet
      (step false ⟨[("c", ⟨0, 0, 4500⟩)], 1⟩ (.procClose "c" (some 1))).1.streams
      "c" = none :=
  abnormal_exit_one_error_no_summary false ⟨[("c", ⟨0, 0, 4500⟩)], 1⟩ "c"
    ⟨0, 0, 4500⟩ (some 1) (by decide) (by decide)

/-- C4 (counterexample): in Scenario C — a Live session whose encoder
exits with code 1 — the client receives one error event but zero terminal
summary events, not the "exactly one terminal status event" the claim
requires. -/
theorem abnormal_exit_no_summary_event :
    countStopped "c"
      (runH false [.startStream "c" cfgA false 0, .procClose "c" (some 1)]).2
      ≠ 1 ∧
    countErrors "c"
      (runH false [.startStream "c" cfgA false 0, .procClose "c" (some 1)]).2
      = 1 ∧
    mapGet
      (runH false [.startStream "c" cfgA false 0, .procClose "c" (some 1)]).1.streams
      "c" = none := by
  exact ⟨by decide, by decide, by decide⟩

/-- C5 (amended): (i) when `spawn` throws synchronously, the start request
surfaces the failure in the same step and no session is registered for
the identity; (ii) when the launch failure is reported through the
asynchronous process `error` event, handling that event emits the error
to the client, tears the process down and removes the registry entry, so
afterwards no session remains for the identity. -/
theorem spawn_failure_paths :
    (∀ (hw : Bool) (s : HandlerState) (sid : String) (cfg : StreamConfig)
       (now : Int),
       ¬ cfg.rtmpUrl.getD "" = "" → mapGet s.streams sid = none →
       step hw s (.startStream sid cfg true now) =
         (s, [.emit sid (.streamError "Failed to start stream")]) ∧
       mapGet (step hw s (.startStream sid cfg true now)).1.streams sid
         = none) ∧
    (∀ (hw : Bool) (s : HandlerState) (sid : String) (info : StreamInfo)
       (now : Int),
       mapGet s.streams sid = some info →
       step hw s (.procError sid now) =
         (⟨mapDelete s.streams sid, s.nextPid⟩,
          [.emit sid (.streamError "FFmpeg error"),
           .endStdin info.pid, .killProc info.pid,
           .emit sid (.streamStopped (jsRoundSecs (now - info.startTime))
             info.bytesReceived)]) ∧
       mapGet (step hw s (.procError sid now)).1.streams sid = none) := by
  constructor
  · intro hw s sid cfg now hurl hg
    have he : step hw s (.startStream sid cfg true now) =
        (s, [.emit sid (.streamError "Failed to start stream")]) := by
      simp only [step]
      rw [startStreamOp_throws hurl, stopStreamOp_none hg]
      rfl
    exact ⟨he, by rw [he]; exact hg⟩
  · intro hw s sid info now hg
    have he : step hw s (.procError sid now) =
        (⟨mapDelete s.streams sid, s.nextPid⟩,
         [.emit sid (.streamError "FFmpeg error"),
          .endStdin info.pid, .killProc info.pid,
          .emit sid (.streamStopped (jsRoundSecs (now - info.startTime))
            info.bytesReceived)]) := by
      simp only [step]
      rw [procErrorOp, stopStreamOp_some hg]
    exact ⟨he, by rw [he]; exact mapGet_mapDelete_self _ _⟩

/-- Witness for C5's amended theorem: synchronous throw on a fresh
handler, and the asynchronous error event on a registered session. -/
theorem spawn_failure_paths_witness :
    step false initState (.startStream "c" cfgA true 0) =
      (initState, [.emit "c" (.streamError "Failed to start stream")]) ∧
    step false ⟨[("c", ⟨0, 0, 0⟩)], 1⟩ (.procError "c" 7) =
      (⟨mapDelete [("c", ⟨0, 0, 0⟩)] "c", 1⟩,
       [.emit "c" (.streamError "FFmpeg error"), .endStdin 0, .killProc 0,
        .emit "c" (.streamStopped (jsRoundSecs (7 - 0)) 0)]) :=
  ⟨(spawn_failure_paths.1 false initState "c" cfgA 0 (by decide) rfl).1,
   (spawn_failure_paths.2 false ⟨[("c", ⟨0, 0, 0⟩)], 1⟩ "c" ⟨0, 0, 0⟩ 7
     (by decide)).1⟩

/-- C5 (counterexample): when the launch failure arrives through the
asynchronous `error` event (Node's behavior for a bad executable path),
the start step itself registers a session and acknowledges the start with
no error event — the failure is *not* surfaced synchronously and a
session *is* registered; only handling the later error event removes
it. -/
theorem async_spawn_failure_registers_session :
    mapGet (runH false [.startStream "c" cfgA false 0]).1.streams "c" =
      some ⟨0, 0, 0⟩ ∧
    countErrors "c" (runH false [.startStream "c" cfgA false 0]).2 = 0 ∧
    (runH false [.startStream "c" cfgA false 0]).2.filter
      (fun e => e == Effect.emit "c" ClientEvent.streamStarted) ≠ [] ∧
    countErrors "c"
      (runH false [.startStream "c" cfgA false 0, .procError "c" 7]).2 = 1 ∧
    mapGet
      (runH false [.startStream "c" cfgA false 0, .procError "c" 7]).1.streams
      "c" = none := by
  exact ⟨by decide, by decide, by decide, by decide, by decide⟩

/-- C6 (amended): start-request validation checks only the target URL: a
missing or empty `rtmpUrl` is rejected synchronously with the
`ConfigError` message, no session created and no process spawned; any
numeric parameters — including non-positive width, height, fps or
bitrate — pass through unvalidated, and the encoder is spawned with
them. -/
theorem only_url_validated :
    (∀ (hw : Bool) (s : HandlerState) (sid : String) (key : Option String)
       (w h f b : Option Int) (st : Bool) (now : Int),
       step hw s (.startStream sid ⟨none, key, w, h, f, b⟩ st now) =
         (s, [.emit sid (.streamError "RTMP URL is required")])) ∧
    (∀ (hw : Bool) (s : HandlerState) (sid : String) (key : Option String)
       (w h f b : Option Int) (st : Bool) (now : Int),
       step hw s (.startStream sid ⟨some "", key, w, h, f, b⟩ st now) =
         (s, [.emit sid (.streamError "RTMP URL is required")])) ∧
    (∀ (hw : Bool) (s : HandlerState) (sid u : String) (key : Option String)
       (w h f b : Int) (now : Int),
       ¬ u = "" → mapGet s.streams sid = none →
       step hw s (.startStream sid ⟨some u, key, some w, some h, some f, some b⟩
           false now) =
         (⟨mapSet s.streams sid ⟨s.nextPid, now, 0⟩, s.nextPid + 1⟩,
          [.spawnProc s.nextPid
             (buildFFmpegArgs (fullTargetUrl u key) w h f b hw),
           .emit sid .streamStarted])) := by
  refine ⟨?_, ?_, ?_⟩
  · intro hw s sid key w h f b st now
    simp only [step]
    exact startStreamOp_invalidUrl
      (show (StreamConfig.mk none key w h f b).rtmpUrl.getD "" = "" from rfl)
      hw s sid st now
  · intro hw s sid key w h f b st now
    simp only [step]
    exact startStreamOp_invalidUrl
      (show (StreamConfig.mk (some "") key w h f b).rtmpUrl.getD "" = "" from rfl)
      hw s sid st now
  · intro hw s sid u key w h f b now hu hg
    have hurl : ¬ (StreamConfig.mk (some u) key (some w) (some h) (some f)
        (some b)).rtmpUrl.getD "" = "" := by simpa using hu
    simp only [step]
    rw [startStreamOp_ok hurl, stopStreamOp_none hg]
    rfl

/-- Witness for C6's amended theorem, including a start whose numeric
parameters are all non-positive. -/
theorem only_url_validated_witness :
    step false initState
        (.startStream "c" ⟨none, none, some 1280, some 720, some 30, some 2500⟩
          false 0) =
      (initState, [.emit "c" (.streamError "RTMP URL is required")]) ∧
    step false initState
        (.startStream "c"
          ⟨some "rtmp://a", none, some (-5), some 0, some (-1), some 0⟩
          false 0) =
      (⟨mapSet initState.streams "c" ⟨0, 0, 0⟩, 1⟩,
       [.spawnProc 0
          (buildFFmpegArgs (fullTargetUrl "rtmp://a" none) (-5) 0 (-1) 0 false),
        .emit "c" .streamStarted]) :=
  ⟨only_url_validated.1 false initState "c" none (some 1280) (some 720)
     (some 30) (some 2500) false 0,
   only_url_validated.2.2 false initState "c" "rtmp://a" none (-5) 0 (-1) 0 0
     (by decide) rfl⟩

/-- C6 (counterexample): a start request whose width, height, fps and
bitrate are all non-positive (`-5`, `0`, `-1`, `0`) is *not* rejected: no
error event is emitted, the encoder is spawned and a session is
registered — contradicting the claim that such requests fail with a
`ConfigError`, create no session and spawn no process. -/
theorem nonpositive_config_not_rejected :
    countErrors "c"
      (runH false [.startStream "c"
        ⟨some "rtmp://a", none, some (-5), some 0, some (-1), some 0⟩
        false 0]).2 = 0 ∧
    ((runH false [.startStream "c"
        ⟨some "rtmp://a", none, some (-5), some 0, some (-1), some 0⟩
        false 0]).2.filter isSpawn).length = 1 ∧
    mapGet
      (runH false [.startStream "c"
        ⟨some "rtmp://a", none, some (-5), some 0, some (-1), some 0⟩
        false 0]).1.streams "c" = some ⟨0, 0, 0⟩ := by
  exact ⟨by decide, by decide, by decide⟩

/-- C7: a transport disconnect for a registered session runs the stop
path: its process's stdin is closed and the process SIGTERMed, the
registry entry is removed (no process handle remains referenced), no
error event is emitted to the disconnected client, and the subsequent
`close` notification of the killed process emits no error either. -/
theorem disconnect_teardown :
    ∀ (hw : Bool) (s : HandlerState) (sid : String) (info : StreamInfo)
      (now : Int),
      mapGet s.streams sid = some info →
      step hw s (.disconnect sid now) =
        (⟨mapDelete s.streams sid, s.nextPid⟩,
         [.endStdin info.pid, .killProc info.pid,
          .emit sid (.streamStopped (jsRoundSecs (now - info.startTime))
            info.bytesReceived)]) ∧
      countErrors sid (step hw s (.disconnect sid now)).2 = 0 ∧
      mapGet (step hw s (.disconnect sid now)).1.streams sid = none ∧
      (∀ code : Option Int,
        (step hw (step hw s (.disconnect sid now)).1 (.procClose sid code)).2
          = []) := by
  intro hw s sid info now hg
  have he : step hw s (.disconnect sid now) =
      (⟨mapDelete s.streams sid, s.nextPid⟩,
       [.endStdin info.pid, .killProc info.pid,
        .emit sid (.streamStopped (jsRoundSecs (now - info.startTime))
          info.bytesReceived)]) := by
    simp only [step]
    exact stopStreamOp_some hg now
  refine ⟨he, ?_, ?_, ?_⟩
  · rw [he]
    simp [countErrors, isErrorEmit]
  · rw [he]
    exact mapGet_mapDelete_self _ _
  · intro code
    rw [he]
    simp only [step]
    rw [procCloseOp_quiet]
    intro hcond
    have := hcond.2
    rw [mapGet_mapDelete_self] at this
    simp at this

/-- Witness for C7 at a concrete Live session. -/
theorem disconnect_teardown_witness :
    step false ⟨[("c", ⟨0, 0, 4500⟩)], 1⟩ (.disconnect "c" 3000) =
      (⟨mapDelete [("c", ⟨0, 0, 4500⟩)] "c", 1⟩,
       [.endStdin 0, .killProc 0,
        .emit "c" (.streamStopped (jsRoundSecs (3000 - 0)) 4500)]) ∧
    countErrors "c"
      (step false ⟨[("c", ⟨0, 0, 4500⟩)], 1⟩ (.disconnect "c" 3000)).2 = 0 :=
  ⟨(disconnect_teardown false ⟨[("c", ⟨0, 0, 4500⟩)], 1⟩ "c" ⟨0, 0, 4500⟩ 3000
     (by decide)).1,
   (disconnect_teardown false ⟨[("c", ⟨0, 0, 4500⟩)], 1⟩ "c" ⟨0, 0, 4500⟩ 3000
     (by decide)).2.1⟩

/-- C9: missing width, height, fps and bitrate fields default to 1920,
1080, 30 and 4500 before the encoder arguments are built; a missing
target URL has no default and is rejected instead. -/
theorem config_defaults :
    (∀ (hw : Bool) (s : HandlerState) (sid u : String) (key : Option String)
       (now : Int),
       ¬ u = "" → mapGet s.streams sid = none →
       step hw s (.startStream sid ⟨some u, key, none, none, none, none⟩
           false now) =
         (⟨mapSet s.streams sid ⟨s.nextPid, now, 0⟩, s.nextPid + 1⟩,
          [.spawnProc s.nextPid
             (buildFFmpegArgs (fullTargetUrl u key) 1920 1080 30 4500 hw),
           .emit sid .streamStarted])) ∧
    (∀ (hw : Bool) (s : HandlerState) (sid : String) (key : Option String)
       (w h f b : Option Int) (st : Bool) (now : Int),
       step hw s (.startStream sid ⟨none, key, w, h, f, b⟩ st now) =
         (s, [.emit sid (.streamError "RTMP URL is required")])) := by
  constructor
  · intro hw s sid u key now hu hg
    have hurl : ¬ (StreamConfig.mk (some u) key none none none
        none).rtmpUrl.getD "" = "" := by simpa using hu
    simp only [step]
    rw [startStreamOp_ok hurl, stopStreamOp_none hg]
    rfl
  · intro hw s sid key w h f b st now
    simp only [step]
    exact startStreamOp_invalidUrl
      (show (StreamConfig.mk none key w h f b).rtmpUrl.getD "" = "" from rfl)
      hw s sid st now

/-- Witness for C9 on a fresh handler. -/
theorem config_defaults_witness :
    step false initState
        (.startStream "c" ⟨some "rtmp://a", some "k", none, none, none, none⟩
          false 0) =
      (⟨mapSet initState.streams "c" ⟨0, 0, 0⟩, 1⟩,
       [.spawnProc 0
          (buildFFmpegArgs (fullTargetUrl "rtmp://a" (some "k"))
            1920 1080 30 4500 false),
        .emit "c" .streamStarted]) :=
  config_defaults.1 false initState "c" "rtmp://a" (some "k") 0
    (by decide) rfl

/-- C10: a binary chunk arriving for a connection with no registered
session is ignored entirely — the handler state (registry and every
counter) is unchanged and no effect is produced: nothing is written, no
process is touched, no event is emitted. -/
theorem chunk_without_session_ignored :
    ∀ (hw : Bool) (s : HandlerState) (sid : String) (size : Nat) (w : Bool),
      mapGet s.streams sid = none →
      step hw s (.streamData sid size w) = (s, []) := by
  intro hw s sid size w hg
  simp only [step]
  exact handleDataOp_none hg size w

/-- Witness for C10 on a fresh handler. -/
theorem chunk_without_session_ignored_witness :
    step false initState (.streamData "c" 1000 true) = (initState, []) :=
  chunk_without_session_ignored false initState "c" 1000 true rfl

end StreamTech
